import Mathlib

/-!
Verification of the Loxone MCP bridge (Python sources under `src/loxone_mcp/`)
against its natural-language specification.  The Python data model and the
operations under scrutiny are shallowly embedded as executable Lean
definitions: Python strings are `List Char`, Python numbers are exact values
(`Int`, `ℚ`, an IEEE-754 binary64 sum type `F64`), dictionaries are
insertion-ordered association lists, and fallible operations return
`Except`/`Option`.  Definitions are translated from the source files;
predicates written from the specification's words (for refinement
comparisons) are marked as such in their doc comments.
-/

/-! ## Python string primitives (`str.lower`, `str.upper`, `str.strip`)

Python strings are embedded as `List Char`.  `str.lower`/`str.upper` are
modelled on the alphabet actually reachable in this code base (ASCII plus
the German letters appearing in the sources); `str.strip` removes the ASCII
whitespace characters from both ends. -/

deriving instance DecidableEq for Except

/-- Association-list lookup with the first-match-wins semantics of a Python
`dict` built by literal insertion (`d.get(k)`). -/
def dictGet {α β : Type} [DecidableEq α] (k : α) : List (α × β) → Option β
  | [] => none
  | p :: t => if p.1 = k then some p.2 else dictGet k t

/-- Lower-case mapping table of `str.lower` restricted to the characters this
code base can meet: ASCII letters and the German upper-case umlauts. -/
def LOWER_TABLE : List (Char × Char) :=
  [('A', 'a'), ('B', 'b'), ('C', 'c'), ('D', 'd'), ('E', 'e'), ('F', 'f'),
   ('G', 'g'), ('H', 'h'), ('I', 'i'), ('J', 'j'), ('K', 'k'), ('L', 'l'),
   ('M', 'm'), ('N', 'n'), ('O', 'o'), ('P', 'p'), ('Q', 'q'), ('R', 'r'),
   ('S', 's'), ('T', 't'), ('U', 'u'), ('V', 'v'), ('W', 'w'), ('X', 'x'),
   ('Y', 'y'), ('Z', 'z'), ('Ä', 'ä'), ('Ö', 'ö'), ('Ü', 'ü')]

/-- Pointwise action of Python `str.lower` on one character. -/
def pyCharLower (c : Char) : Char := (dictGet c LOWER_TABLE).getD c

/-- Python `str.lower` on a whole string. -/
def pyLower (s : List Char) : List Char := s.map pyCharLower

/-- Upper-case mapping table of Python `str.upper` (note `'ß'.upper() = "SS"`,
so the result of one character is a string). -/
def UPPER_TABLE : List (Char × List Char) :=
  [('a', ['A']), ('b', ['B']), ('c', ['C']), ('d', ['D']), ('e', ['E']),
   ('f', ['F']), ('g', ['G']), ('h', ['H']), ('i', ['I']), ('j', ['J']),
   ('k', ['K']), ('l', ['L']), ('m', ['M']), ('n', ['N']), ('o', ['O']),
   ('p', ['P']), ('q', ['Q']), ('r', ['R']), ('s', ['S']), ('t', ['T']),
   ('u', ['U']), ('v', ['V']), ('w', ['W']), ('x', ['X']), ('y', ['Y']),
   ('z', ['Z']), ('ä', ['Ä']), ('ö', ['Ö']), ('ü', ['Ü']), ('ß', ['S', 'S'])]

/-- Python `str.upper` on a whole string. -/
def pyUpper (s : List Char) : List Char :=
  (s.map fun c => (dictGet c UPPER_TABLE).getD [c]).flatten

/-- Whitespace test of Python `str.strip` (ASCII whitespace set). -/
def isPySpace (c : Char) : Bool :=
  c = ' ' || c = '\t' || c = '\n' || c = '\r' || c.toNat = 11 || c.toNat = 12

/-- Python `str.strip`: drop whitespace from the left end, then from the
right end. -/
def pyStrip (s : List Char) : List Char :=
  List.rdropWhile isPySpace (List.dropWhile isPySpace s)

/-! ## Tool dispatcher: action normalization (`server.py`) -/

/-- The static German/English action-alias table `ACTION_ALIASES` of
`server.py`. -/
def ACTION_ALIASES : List (List Char × List Char) :=
  [("hoch".data, "up".data), ("rauf".data, "up".data),
   ("öffnen".data, "up".data), ("auf".data, "up".data),
   ("oeffnen".data, "up".data),
   ("runter".data, "down".data), ("zu".data, "down".data),
   ("schließen".data, "down".data), ("schliessen".data, "down".data),
   ("stop".data, "stop".data), ("stopp".data, "stop".data),
   ("anhalten".data, "stop".data),
   ("an".data, "on".data), ("ein".data, "on".data),
   ("einschalten".data, "on".data),
   ("aus".data, "off".data), ("ausschalten".data, "off".data),
   ("umschalten".data, "toggle".data), ("wechseln".data, "toggle".data),
   ("dimmen".data, "dim".data)]

/-- The `normalize_action` function of `server.py`:
`action_lower = action.lower().strip()` followed by
`ACTION_ALIASES.get(action_lower, action_lower)`. -/
def normalize_action (action : List Char) : List Char :=
  let action_lower := pyStrip (pyLower action)
  (dictGet action_lower ACTION_ALIASES).getD action_lower

/-! ## Python values

IEEE-754 binary64 values are embedded as a sum type carrying the exactly
represented rational in the finite case; Python runtime values reaching the
state logger are embedded as the sum `PyVal`. -/

/-- An IEEE-754 binary64 value: NaN, a signed infinity (`true` = negative),
or a finite value given by the exact rational it represents. -/
inductive F64 where
  | nan : F64
  | inf : Bool → F64
  | fin : ℚ → F64
deriving DecidableEq

/-- Python float equality (`==`): NaN compares unequal to everything,
including itself. -/
def f64Eq : F64 → F64 → Bool
  | .fin a, .fin b => a = b
  | .inf s, .inf t => s = t
  | _, _ => false

/-- Python float `<=`: false whenever NaN is involved. -/
def f64Le : F64 → F64 → Bool
  | .fin a, .fin b => a ≤ b
  | .fin _, .inf s => !s
  | .inf s, .fin _ => s
  | .inf s, .inf t => s = t || s
  | _, _ => false

/-- Python float `<`: false whenever NaN is involved. -/
def f64Lt : F64 → F64 → Bool
  | .fin a, .fin b => a < b
  | .fin _, .inf s => !s
  | .inf s, .fin _ => s
  | .inf s, .inf t => s && !t
  | _, _ => false

/-- Python `abs` on a float. -/
def f64Abs : F64 → F64
  | .nan => .nan
  | .inf _ => .inf false
  | .fin q => .fin |q|

/-- A Python runtime value as it reaches the state logger and the sensor
discoverer: an int, a float, a bool, a string, or `None`. -/
inductive PyVal where
  | int : Int → PyVal
  | float : F64 → PyVal
  | bool : Bool → PyVal
  | str : List Char → PyVal
  | none : PyVal
deriving DecidableEq

/-- Numeric view used by Python `==`: ints and bools compare by their
numeric value (`True == 1`, `False == 0`), floats by themselves. -/
def pyToNum : PyVal → Option F64
  | .int n => some (.fin n)
  | .float f => some f
  | .bool b => some (.fin (if b then 1 else 0))
  | _ => Option.none

/-- Python `==` on the embedded values: numeric cross-type comparison for
int/float/bool, structural comparison for strings and `None`, and `False`
across kinds. -/
def pyEq (a b : PyVal) : Bool :=
  match pyToNum a, pyToNum b with
  | some x, some y => f64Eq x y
  | _, _ =>
    match a, b with
    | .str s, .str t => s = t
    | .none, .none => true
    | _, _ => false

/-! ## State-change log: human-readable labels (`sensor_state_logger.py`) -/

/-- Simple rendering used only by the `VALUE(...)` fallback branch below;
the exact numeric formatting of Python `str()` is not modelled (no claim
depends on that branch's text). -/
def pyShow : PyVal → List Char
  | .int n => (toString n).data
  | .float _ => "float".data
  | .bool true => "True".data
  | .bool false => "False".data
  | .str s => s
  | .none => "None".data

/-- The `_get_human_readable_state` method of `sensor_state_logger.py`:
`value == 0` ↦ `"OPEN"`, `value == 1` ↦ `"CLOSED"`, strings uppercased,
otherwise `f"VALUE({value})"`. -/
def get_human_readable_state (value : PyVal) : List Char :=
  if pyEq value (.int 0) || pyEq value (.float (.fin 0)) then "OPEN".data
  else if pyEq value (.int 1) || pyEq value (.float (.fin 1)) then
    "CLOSED".data
  else
    match value with
    | .str s => pyUpper s
    | _ => "VALUE(".data ++ pyShow value ++ ")".data

/-! ## Token manager: hash-algorithm selection and token acquisition
(`loxone_token_client.py`) -/

/-- Hash algorithms the client can actually run. -/
inductive HashAlgKind where
  | sha1 : HashAlgKind
  | sha256 : HashAlgKind
deriving DecidableEq

/-- The hasher choice of `_acquire_token` step 2:
`hashlib.sha256() if hash_alg.upper() == "SHA256" else hashlib.sha1(...)`. -/
def select_hash_algorithm (hash_alg : List Char) : HashAlgKind :=
  if pyUpper hash_alg = "SHA256".data then .sha256 else .sha1

/-- Symbolic cryptographic byte strings/digests built during the handshake
(the hash functions themselves are collaborators; what matters here is which
algorithm is applied to which data). -/
inductive CryptoMsg where
  | lit : List Char → CryptoMsg
  | cat : CryptoMsg → CryptoMsg → CryptoMsg
  | hexDigestUpper : HashAlgKind → CryptoMsg → CryptoMsg
  | hmacHexDigest : HashAlgKind → CryptoMsg → CryptoMsg → CryptoMsg
  | hexDecode : CryptoMsg → CryptoMsg
deriving DecidableEq

/-- The `value` object of a `jdev/sys/getkey2` response; `hashAlg` is
optional because older Miniservers omit it (`key_info.get("hashAlg",
"SHA1")`). -/
structure GetKey2Value where
  key : List Char
  salt : List Char
  hashAlg : Option (List Char)
deriving DecidableEq

/-- An LL-enveloped `getkey2` response (code plus value). -/
structure GetKey2Resp where
  code : List Char
  value : GetKey2Value
deriving DecidableEq

/-- The `value` object of a `jdev/sys/getjwt` response. -/
structure GetJwtValue where
  token : List Char
  validUntil : Option Int
  tokenRights : Option Int
  key : Option (List Char)
deriving DecidableEq

/-- An LL-enveloped `getjwt` response. -/
structure GetJwtResp where
  code : List Char
  value : GetJwtValue
deriving DecidableEq

/-- Failure outcomes of the token handshake. `protocolUnsupported` is the
spec's error for an unknown `hashAlg`; it is listed so the claim about it
can be stated. -/
inductive TokenError where
  | keyRequestFailed : TokenError
  | tokenRequestFailed : TokenError
  | protocolUnsupported : TokenError
deriving DecidableEq

/-- The session state `_acquire_token` stores on success, extended with a
record of which hash algorithm was used and which HMAC was sent. -/
structure TokenSession where
  token : List Char
  token_valid_until : Option Int
  token_rights : Option Int
  session_key : Option (List Char)
  used_hash_alg : HashAlgKind
  sent_hmac : CryptoMsg
deriving DecidableEq

/-- The `_acquire_token` flow of `loxone_token_client.py`, given the two
scripted Miniserver responses: check `getkey2` code, pick the hasher from
`hashAlg` (missing ↦ `"SHA1"`), hash `password:salt`, HMAC
`username:pw_hash` under the same algorithm, then check the `getjwt` code
and store the token fields. -/
def acquire_token (password username : List Char) (kr : GetKey2Resp)
    (tr : GetJwtResp) : Except TokenError TokenSession :=
  if kr.code ≠ "200".data then .error .keyRequestFailed
  else
    let hash_alg := kr.value.hashAlg.getD "SHA1".data
    let alg := select_hash_algorithm hash_alg
    let pw_hash := CryptoMsg.hexDigestUpper alg
      (.lit (password ++ ":".data ++ kr.value.salt))
    let hmac_hash := CryptoMsg.hmacHexDigest alg (.hexDecode (.lit kr.value.key))
      (.cat (.lit (username ++ ":".data)) pw_hash)
    if tr.code ≠ "200".data then .error .tokenRequestFailed
    else .ok { token := tr.value.token,
               token_valid_until := tr.value.validUntil,
               token_rights := tr.value.tokenRights,
               session_key := tr.value.key,
               used_hash_alg := alg,
               sent_hmac := hmac_hash }

/-! ## HTTP command channel: the 401 retry loop (`send_command`) -/

/-- One scripted LL command response: its `LL.code` and `LL.value`. -/
structure CmdResp where
  code : List Char
  value : List Char
deriving DecidableEq

/-- The token-related client state `send_command` reads and writes: the
held token and how many token acquisitions have been performed. -/
structure TokenClientState where
  token : Option (List Char)
  acquisitions : Nat
deriving DecidableEq

/-- Effect of one `_acquire_token` call on the client state: a fresh token
is stored and the acquisition count increments. -/
def acquire_token_again (s : TokenClientState) : TokenClientState :=
  { token := some "refreshed-jwt".data, acquisitions := s.acquisitions + 1 }

/-- The `_refresh_token_if_needed` step under a non-expiring clock: it
acquires a token only when none is held.  (The expiry-driven refresh branch
depends on wall-clock time and is orthogonal to the 401-retry claim.) -/
def refresh_token_if_needed (s : TokenClientState) : TokenClientState :=
  match s.token with
  | Option.none => acquire_token_again s
  | some _ => s

/-- Error outcomes of `send_command`.  `unauthorized` is the spec's
`ErrorKind::Unauthorized`; it is listed so the claim about it can be
stated.  `scriptExhausted` marks the scripted environment running out of
responses (the real client would simply issue another HTTP request). -/
inductive CommandError where
  | noValidToken : CommandError
  | unauthorized : CommandError
  | scriptExhausted : CommandError
deriving DecidableEq

/-- The `send_command` loop of `loxone_token_client.py` over a scripted
list of responses: refresh/ensure a token, consume one response; on
`LL.code == "401"` re-acquire a token and recurse on the remaining script
(the source line `return await self.send_command(command)`), otherwise
return the response value. -/
def send_command (responses : List CmdResp) (s : TokenClientState) :
    Except CommandError (List Char × TokenClientState) :=
  match responses with
  | [] => .error .scriptExhausted
  | r :: rest =>
    let s1 := refresh_token_if_needed s
    match s1.token with
    | Option.none => .error .noValidToken
    | some _ =>
      if r.code = "401".data then send_command rest (acquire_token_again s1)
      else .ok (r.value, s1)

/-! ## Dynamic sensor discovery (`dynamic_sensor_discovery.py`)

Values delivered to `on_state_update` by the WebSocket callbacks are finite
non-NaN floats (the frame parser's plausibility filter rejects NaN and
infinities), so they are embedded as exact rationals here. -/

/-- Association-list update with Python `dict` assignment semantics for an
existing key: the entry is replaced in place, keeping its insertion
position. -/
def dictSet {α β : Type} [DecidableEq α] (k : α) (v : β) :
    List (α × β) → List (α × β)
  | [] => []
  | p :: t => if p.1 = k then (k, v) :: t else p :: dictSet k v t

/-- The `DiscoveredSensor` dataclass of `dynamic_sensor_discovery.py`. -/
structure DiscoveredSensor where
  uuid : List Char
  current_value : ℚ
  value_history : List ℚ
  first_seen : ℚ
  last_updated : ℚ
  update_count : Nat
  is_binary : Bool := false
  is_door_window : Bool := false
  category : List Char := "unknown".data
  confidence : ℚ := 0
  pattern_score : ℚ := 0
deriving DecidableEq

/-- The `on_state_update` handler (discovery active): an update for a known
UUID appends to `value_history` only when the value changed; an unknown
UUID creates a fresh record with a one-element history. -/
def on_state_update (t : ℚ) (u : List Char) (v : ℚ)
    (sensors : List (List Char × DiscoveredSensor)) :
    List (List Char × DiscoveredSensor) :=
  match dictGet u sensors with
  | some sensor =>
    if sensor.current_value ≠ v then
      dictSet u { sensor with
        value_history := sensor.value_history ++ [v],
        current_value := v,
        last_updated := t,
        update_count := sensor.update_count + 1 } sensors
    else sensors
  | Option.none =>
    sensors ++ [(u, { uuid := u, current_value := v, value_history := [v],
                      first_seen := t, last_updated := t,
                      update_count := 1 })]

/-- A whole discovery window: fold `on_state_update` over the incoming
`(time, uuid, value)` events, starting from no sensors. -/
def run_discovery (events : List (ℚ × List Char × ℚ)) :
    List (List Char × DiscoveredSensor) :=
  events.foldl (fun sensors e => on_state_update e.1 e.2.1 e.2.2 sensors) []

/-- One category's entry in the `SENSOR_CATEGORIES` criteria table; absent
keys are `none` (`require_change` is read with a falsy default). -/
structure Criteria where
  binary_only : Option Bool := Option.none
  max_updates : Option Nat := Option.none
  min_activity : Option Nat := Option.none
  stable_pattern : Option Bool := Option.none
  require_change : Bool := false
  value_range : Option (ℚ × ℚ) := Option.none
deriving DecidableEq

/-- Criteria of the `door_window` category. -/
def door_window_criteria : Criteria :=
  { binary_only := some true, max_updates := some 3, min_activity := some 1,
    stable_pattern := some true, require_change := true }

/-- Criteria of the `motion` category. -/
def motion_criteria : Criteria :=
  { binary_only := some true, max_updates := some 100,
    min_activity := some 5, stable_pattern := some false }

/-- Criteria of the `analog` category. -/
def analog_criteria : Criteria :=
  { binary_only := some false, value_range := some (0, 1000),
    min_activity := some 1 }

/-- Criteria of the `noisy` category. -/
def noisy_criteria : Criteria :=
  { max_updates := some 1000, min_activity := some 50 }

/-- The ordered `SENSOR_CATEGORIES` table (Python dict iteration order =
insertion order). -/
def SENSOR_CATEGORIES : List (List Char × Criteria) :=
  [("door_window".data, door_window_criteria),
   ("motion".data, motion_criteria),
   ("analog".data, analog_criteria),
   ("noisy".data, noisy_criteria)]

/-- The `_calculate_category_score` method: a running `(score, max_score)`
pair over the criteria checks, with the two early `return 0.0` exits
(non-binary values for a binary-only category, no state change when
`require_change`) modelled as `none`. -/
def calculate_category_score (sensor : DiscoveredSensor)
    (unique_values : Finset ℚ) (criteria : Criteria) : ℚ :=
  let step1 : Option (ℚ × ℚ) :=
    match criteria.binary_only with
    | Option.none => some (0, 0)
    | some true =>
      if unique_values ⊆ {0, 1} then some (30, 30) else Option.none
    | some false =>
      some ((if unique_values ⊆ {0, 1} then 0 else 30), 30)
  match step1 with
  | Option.none => 0
  | some (sc1, mx1) =>
    let step2 : Option (ℚ × ℚ) :=
      if criteria.require_change then
        (if 2 ≤ unique_values.card then some (sc1 + 25, mx1 + 25)
         else Option.none)
      else some (sc1, mx1)
    match step2 with
    | Option.none => 0
    | some (sc2, mx2) =>
      let p3 : ℚ × ℚ :=
        match criteria.max_updates with
        | Option.none => (sc2, mx2)
        | some mu =>
          ((if sensor.update_count ≤ mu then sc2 + 20
            else sc2 +
              ((max 0 (20 - ((sensor.update_count : ℤ) - (mu : ℤ)) * 10) : ℤ) : ℚ)),
           mx2 + 20)
      let p4 : ℚ × ℚ :=
        match criteria.min_activity with
        | Option.none => p3
        | some ma =>
          ((if ma ≤ sensor.update_count then p3.1 + 15 else p3.1), p3.2 + 15)
      let p5 : ℚ × ℚ :=
        match criteria.value_range with
        | Option.none => p4
        | some r =>
          ((if ∀ v ∈ unique_values, r.1 ≤ v ∧ v ≤ r.2 then p4.1 + 10
            else p4.1), p4.2 + 10)
      let p6 : ℚ × ℚ :=
        match criteria.stable_pattern with
        | Option.none => p5
        | some true =>
          ((if unique_values.card = 2 ∧ unique_values = {0, 1}
              ∧ sensor.update_count ≤ 3 then p5.1 + 10
            else if unique_values.card = 2 ∧ sensor.update_count ≤ 3 then
              p5.1 + 5
            else p5.1), p5.2 + 10)
        | some false => (p5.1 + 8, p5.2 + 10)
      if 0 < p6.2 then p6.1 / p6.2 else 0

/-- The `_calculate_pattern_score` method (`now` is the wall-clock value of
`time.time()` at analysis time). -/
def calculate_pattern_score (now : ℚ) (sensor : DiscoveredSensor)
    (unique_values : Finset ℚ) : ℚ :=
  let s1 : ℚ := if unique_values ⊆ {0, 1} then 2/5 else 0
  let s2 : ℚ := s1 +
    (if 1 ≤ sensor.update_count ∧ sensor.update_count ≤ 20 then 3/10
     else if sensor.update_count ≤ 50 then 1/5 else 0)
  let s3 : ℚ := s2 + (if unique_values.card ≤ 3 then 1/5 else 0)
  let s4 : ℚ := s3 + (if now - sensor.last_updated < 60 then 1/10 else 0)
  min s4 1

/-- One iteration of the best-category loop of
`_analyze_discovered_sensors`: keep the running `(best_category,
best_score)` unless this category's score strictly exceeds it. -/
def best_step (sensor : DiscoveredSensor) (unique_values : Finset ℚ)
    (best : List Char × ℚ) (p : List Char × Criteria) : List Char × ℚ :=
  let score := calculate_category_score sensor unique_values p.2
  if best.2 < score then (p.1, score) else best

/-- The best-category fold of `_analyze_discovered_sensors`, starting from
`("unknown", 0.0)`. -/
def best_category (sensor : DiscoveredSensor) (unique_values : Finset ℚ) :
    List Char × ℚ :=
  SENSOR_CATEGORIES.foldl (best_step sensor unique_values) ("unknown".data, 0)

/-- Analysis of one sensor in `_analyze_discovered_sensors`: compute the
unique-value set from the history, pick the best category, store
category/confidence/pattern score and the legacy flags. -/
def analyze_sensor (now : ℚ) (sensor : DiscoveredSensor) :
    DiscoveredSensor :=
  let uv := sensor.value_history.toFinset
  let bc := best_category sensor uv
  let s1 := { sensor with
    category := bc.1
    confidence := bc.2
    pattern_score := calculate_pattern_score now sensor uv }
  if bc.1 = "door_window".data then
    { s1 with is_door_window := true, is_binary := true }
  else if uv ⊆ {0, 1} then { s1 with is_binary := true }
  else s1

/-- The `_analyze_discovered_sensors` pass over every discovered sensor. -/
def analyze_discovered_sensors (now : ℚ)
    (sensors : List (List Char × DiscoveredSensor)) :
    List (List Char × DiscoveredSensor) :=
  sensors.map (fun p => (p.1, analyze_sensor now p.2))

/-- Event sequence for the history-cap counterexample: 65 alternating 0/1
updates for one UUID. -/
def history_cap_events : List (ℚ × List Char × ℚ) :=
  (List.range 65).map
    (fun (i : Nat) =>
      ((i : ℚ), "u1".data, if Nat.mod i 2 = 0 then (0 : ℚ) else 1))

/-- The sensor record produced by a single update `(t = 0, "u0", 5)`, used
by witnesses. -/
def fresh_example_sensor : DiscoveredSensor :=
  { uuid := "u0".data, current_value := 5, value_history := [5],
    first_seen := 0, last_updated := 0, update_count := 1 }

/-- Concrete sensor record classified `door_window` by the analysis, used
by witnesses. -/
def dw_example_sensor : DiscoveredSensor :=
  { uuid := "w1".data, current_value := 1, value_history := [0, 1],
    first_seen := 0, last_updated := 0, update_count := 2 }

/-- Concrete sensor record with a non-binary history, used by witnesses. -/
def nonbinary_example_sensor : DiscoveredSensor :=
  { uuid := "w2".data, current_value := 5, value_history := [0, 5],
    first_seen := 0, last_updated := 0, update_count := 2 }

/-! ## State-change log: ring buffers and eviction
(`sensor_state_logger.py`) -/

/-- Association-list deletion (`del d[k]`): remove the entry with the given
key. -/
def remove_key {α β : Type} [DecidableEq α] (k : α) :
    List (α × β) → List (α × β)
  | [] => []
  | p :: t => if p.1 = k then t else p :: remove_key k t

/-- The `StateChangeEvent` dataclass of `sensor_state_logger.py`. -/
structure StateChangeEvent where
  uuid : List Char
  timestamp : ℚ
  old_value : PyVal
  new_value : PyVal
  human_readable : List Char
  event_type : List Char := "state_change".data
deriving DecidableEq

/-- The `SensorStateHistory` dataclass: per-sensor history with a ring
buffer of events. -/
structure SensorStateHistory where
  uuid : List Char
  first_seen : ℚ
  last_updated : ℚ
  total_changes : Nat
  current_state : PyVal
  state_events : List StateChangeEvent
  max_events : Nat := 100
deriving DecidableEq

/-- The limits a `SensorStateLogger` is constructed with. -/
structure LoggerConfig where
  max_events_per_sensor : Nat := 100
  max_sensors : Nat := 1000
deriving DecidableEq

/-- Python bounded-deque append with bound `m`: append on the right, dropping from
the left when the buffer is full. -/
def ring_append (m : Nat) (es : List StateChangeEvent)
    (e : StateChangeEvent) : List StateChangeEvent :=
  let es2 := es ++ [e]
  if m < es2.length then es2.drop (es2.length - m) else es2

/-- Python `min` by `last_updated` over a nonempty association
list: the first entry with minimal `last_updated` (ties keep the earlier
entry, as `min` does). -/
def min_last_updated (h : List Char × SensorStateHistory)
    (t : List (List Char × SensorStateHistory)) :
    List Char × SensorStateHistory :=
  t.foldl (fun acc p => if p.2.last_updated < acc.2.last_updated then p
    else acc) h

/-- Arguments of one `log_state_change(uuid, old_value, new_value)` call,
with the wall-clock time it runs at. -/
structure LogCall where
  timestamp : ℚ
  uuid : List Char
  old_value : PyVal
  new_value : PyVal
deriving DecidableEq

/-- The `log_state_change` method: evict the least-recently-updated sensor
when a new UUID would exceed `max_sensors` (Python's `min()` on an empty
dict would raise, which is only reachable with `max_sensors = 0`), build
the event with its human-readable label, then append to the existing ring
buffer or create a fresh one. -/
def log_state_change (cfg : LoggerConfig) (c : LogCall)
    (hs : List (List Char × SensorStateHistory)) :
    List (List Char × SensorStateHistory) :=
  let hs1 :=
    if (dictGet c.uuid hs).isNone ∧ cfg.max_sensors ≤ hs.length then
      match hs with
      | [] => hs
      | h :: t => remove_key (min_last_updated h t).1 hs
    else hs
  let e : StateChangeEvent :=
    { uuid := c.uuid, timestamp := c.timestamp, old_value := c.old_value,
      new_value := c.new_value,
      human_readable := get_human_readable_state c.new_value }
  match dictGet c.uuid hs1 with
  | some h =>
    dictSet c.uuid { h with
      last_updated := c.timestamp
      total_changes := h.total_changes + 1
      current_state := c.new_value
      state_events := ring_append cfg.max_events_per_sensor h.state_events e }
      hs1
  | Option.none =>
    hs1 ++ [(c.uuid,
      { uuid := c.uuid, first_seen := c.timestamp,
        last_updated := c.timestamp, total_changes := 1,
        current_state := c.new_value,
        state_events := ring_append cfg.max_events_per_sensor [] e,
        max_events := cfg.max_events_per_sensor })]

/-- A whole logging session: fold `log_state_change` over the calls,
starting from no tracked sensors. -/
def run_logger (cfg : LoggerConfig) (calls : List LogCall) :
    List (List Char × SensorStateHistory) :=
  calls.foldl (fun hs c => log_state_change cfg c hs) []

/-! ## State-change log: periodic sync to disk (`persist_logs`)

The file operations `persist_logs` performs are modelled as a trace over a
small filesystem semantics; the JSON rendering of `asdict` is structural
and is modelled by carrying the serialized data value itself. -/

/-- Concrete calls used by the state-logger witness. -/
def witness_log_calls : List LogCall :=
  [⟨0, "a".data, .none, .float (.fin 1)⟩,
   ⟨1, "b".data, .none, .float (.fin 0)⟩,
   ⟨2, "c".data, .none, .float (.fin 1)⟩]

/-- The payload `persist_logs` serializes: session metadata plus every
sensor history. -/
structure LogFileData where
  session_start : ℚ
  last_persisted : ℚ
  sensor_histories : List (List Char × SensorStateHistory)
deriving DecidableEq

/-- Filesystem operations a sync could perform. -/
inductive FsOp where
  | openTrunc : List Char → FsOp
  | writeAll : List Char → LogFileData → FsOp
  | closeFile : List Char → FsOp
  | renameFile : List Char → List Char → FsOp
deriving DecidableEq

/-- The operation trace of `persist_logs`:
`with open(self.log_file, "w") as f: json.dump(data, f)` — open the target
itself with mode `"w"` (which truncates it), write the serialized data,
close.  No temporary file and no rename appear in the source. -/
def persist_logs_trace (log_file : List Char) (d : LogFileData) :
    List FsOp :=
  [.openTrunc log_file, .writeAll log_file d, .closeFile log_file]

/-- What a reader observes in one file: absent, truncated (opened with
`"w"` but not yet fully written), or the complete serialized data. -/
inductive FileContent where
  | absent : FileContent
  | truncated : FileContent
  | complete : LogFileData → FileContent
deriving DecidableEq

/-- Store a file's content, creating the file if needed. -/
def setFile (p : List Char) (content : FileContent)
    (fs : List (List Char × FileContent)) :
    List (List Char × FileContent) :=
  if (dictGet p fs).isSome then dictSet p content fs
  else fs ++ [(p, content)]

/-- Small-step filesystem semantics for one operation. -/
def apply_fs_op (fs : List (List Char × FileContent)) :
    FsOp → List (List Char × FileContent)
  | .openTrunc p => setFile p .truncated fs
  | .writeAll p d => setFile p (.complete d) fs
  | .closeFile _ => fs
  | .renameFile src dst =>
    match dictGet src fs with
    | some content => setFile dst content (remove_key src fs)
    | Option.none => fs

/-- Run a trace of filesystem operations. -/
def run_fs (fs : List (List Char × FileContent)) (ops : List FsOp) :
    List (List Char × FileContent) :=
  ops.foldl apply_fs_op fs

/-- What a reader of path `p` sees. -/
def getFile (p : List Char) (fs : List (List Char × FileContent)) :
    FileContent :=
  (dictGet p fs).getD .absent

/-- Rename test on one operation. -/
def isRenameOp : FsOp → Bool
  | .renameFile _ _ => true
  | _ => false

/-- Whether one operation touches the given path at all. -/
def touchesPath (p : List Char) : FsOp → Bool
  | .openTrunc q => q = p
  | .writeAll q _ => q = p
  | .closeFile q => q = p
  | .renameFile src dst => src = p || dst = p

/-- Written from the specification's words (for the refinement comparison
of the atomic-sync claim): a trace replaces `target` atomically by
write-temp-then-rename when its last operation renames some other path
onto `target` and no earlier operation touches `target`. -/
def spec_atomic_replace_pattern (target : List Char) (ops : List FsOp) :
    Bool :=
  match ops.getLast? with
  | some (.renameFile src dst) =>
    dst = target && !(src = target)
      && ops.dropLast.all (fun op => !touchesPath target op)
  | _ => false

/-- Concrete serialized payload used by the sync counterexample. -/
def example_log_data : LogFileData :=
  { session_start := 0, last_persisted := 2,
    sensor_histories := [("s1".data,
      { uuid := "s1".data, first_seen := 0, last_updated := 1,
        total_changes := 1, current_state := .float (.fin 1),
        state_events := [] })] }

/-- Older on-disk payload present before the sync runs. -/
def example_old_log_data : LogFileData :=
  { session_start := 0, last_persisted := 1, sensor_histories := [] }

/-! ## WebSocket binary frame parser (`loxone_websocket_client.py`)

Binary frames are byte lists; `struct.unpack` of a little-endian `f64` is
modelled by exact IEEE-754 binary64 decoding into `F64` (the represented
value is exact, so all comparisons agree with float semantics).  The float
literals `1e-30`/`1e+30` are modelled by their exact decimal values; the
nearest-binary64 rounding is within one ulp of those and no claim verdict
depends on that ulp. -/

/-- Python `dict` assignment `d[k] = v`: replace in place when present,
append when new. -/
def dictPut {α β : Type} [DecidableEq α] (k : α) (v : β)
    (l : List (α × β)) : List (α × β) :=
  if (dictGet k l).isSome then dictSet k v l else l ++ [(k, v)]

/-- Lower-case hex digit of a nibble. -/
def hexDigit (n : Nat) : Char :=
  if n < 10 then Char.ofNat (48 + n) else Char.ofNat (87 + n)

/-- Two lower-case hex digits of a byte. -/
def byteHex (b : Nat) : List Char :=
  [hexDigit (b / 16 % 16), hexDigit (b % 16)]

/-- The canonical string of `uuid.UUID` built from 16 bytes: 32 hex digits grouped
8-4-4-4-12 with dashes, 36 characters in all. -/
def uuid_canonical (bs : List Nat) : List Char :=
  let h := (bs.map byteHex).flatten
  h.take 8 ++ ['-'] ++ (h.drop 8).take 4 ++ ['-'] ++ (h.drop 12).take 4
    ++ ['-'] ++ (h.drop 16).take 4 ++ ['-'] ++ h.drop 20

/-- Little-endian byte list to natural number (first byte least
significant). -/
def leNat (bs : List Nat) : Nat :=
  bs.foldr (fun b acc => b + 256 * acc) 0

/-- IEEE-754 binary64 decoding of 8 little-endian bytes, the semantics of
`struct.unpack('<d', value_bytes)[0]`: split into sign, 11 exponent bits
and 52 mantissa bits; represent finite results as the exact rational
(`mkRat` keeps the definition kernel-computable). -/
def decode_f64 (bs : List Nat) : F64 :=
  let n : Nat := leNat bs
  let sign : Nat := n / 2 ^ 63 % 2
  let expf : Nat := n / 2 ^ 52 % 2 ^ 11
  let mant : Nat := n % 2 ^ 52
  let sgn : Int := if sign = 1 then -1 else 1
  if expf = 2047 then (if mant = 0 then .inf (sign = 1) else .nan)
  else if expf = 0 then .fin (mkRat (sgn * (mant : ℤ)) (2 ^ 1074))
  else if 1075 ≤ expf then
    .fin ((sgn * (((2 ^ 52 + mant) * 2 ^ (expf - 1075) : Nat) : ℤ) : ℤ) : ℚ)
  else .fin (mkRat (sgn * ((2 ^ 52 + mant : Nat) : ℤ)) (2 ^ (1075 - expf)))

/-- The `_is_valid_sensor_uuid` heuristic: a non-empty canonical string of
length 36. -/
def is_valid_sensor_uuid (u : List Char) : Bool :=
  !(u = []) && u.length = 36

/-- The Python float literal `1e-30`, modelled by its exact decimal
value. -/
def lit_1e_minus_30 : ℚ := mkRat 1 (10 ^ 30)

/-- The Python float literal `1e+30`, modelled by its exact decimal
value. -/
def lit_1e_plus_30 : ℚ := mkRat (10 ^ 30) 1

/-- The `_is_reasonable_sensor_value` filter: reject NaN; accept exact 0/1;
accept `0 <= value <= 1000`; otherwise accept unless
`abs(value) < 1e-30 or abs(value) > 1e+30`. -/
def is_reasonable_sensor_value (value : F64) : Bool :=
  if !(f64Eq value value) then false
  else if f64Eq value (.fin 0) || f64Eq value (.fin 1) then true
  else if f64Le (.fin 0) value && f64Le value (.fin 1000) then true
  else !(f64Lt (f64Abs value) (.fin lit_1e_minus_30)
    || f64Lt (.fin lit_1e_plus_30) (f64Abs value))

/-- Python `old_value != value` where `old_value` is `states.get(uuid)`:
`None` differs from every float, floats compare by `!=`. -/
def state_changed (old : Option F64) (v : F64) : Bool :=
  match old with
  | Option.none => true
  | some o => !(f64Eq o v)

/-- The overlapping scan of `_try_parse_gen1_states` over the payload:
each 24-byte window decodes 16 UUID bytes and 8 value bytes; accepted
values are stored in the state mirror, counting an update when the value
changed; the scan advances by 8 after every window.  The
`except (ValueError, struct.error)` branch that would advance by 1 is
unreachable: both slices have their exact lengths (the window guard
guarantees it), `uuid.UUID` accepts any 16 bytes and `struct.unpack` any
8 bytes, so neither can raise. -/
def try_parse_gen1_loop (fuel : Nat) (states : List (List Char × F64))
    (payload : List Nat) : List (List Char × F64) × Nat :=
  match fuel with
  | 0 => (states, 0)
  | fuel + 1 =>
    if 24 ≤ payload.length then
      let uuid_str := uuid_canonical (payload.take 16)
      let value := decode_f64 ((payload.drop 16).take 8)
      if is_valid_sensor_uuid uuid_str && is_reasonable_sensor_value value then
        let old := dictGet uuid_str states
        let states2 := dictPut uuid_str value states
        if state_changed old value then
          let r := try_parse_gen1_loop fuel states2 (payload.drop 8)
          (r.1, r.2 + 1)
        else try_parse_gen1_loop fuel states2 (payload.drop 8)
      else try_parse_gen1_loop fuel states (payload.drop 8)
    else (states, 0)

/-- Entry point of the scan: the loop consumes at least 8 bytes per
iteration and stops as soon as fewer than 24 remain, so `payload.length`
units of fuel always suffice (the fuel only makes the structural
termination of the `while offset + 24 <= len(payload)` loop explicit). -/
def try_parse_gen1_states (states : List (List Char × F64))
    (payload : List Nat) : List (List Char × F64) × Nat :=
  try_parse_gen1_loop payload.length states payload

/-- The `_handle_binary_message` dispatcher: frames shorter than 8 bytes
are dropped; the 8-byte header is read (`bin_type` is byte 0, `identifier`
byte 1); frames of at least 24 bytes get the generic payload scan; the
observed Gen-1 identifiers `0xf5`/`0xf6` (bulk) and `0x5e` (individual)
scan the same payload again; `0x05` with `bin_type 0xd1` is only logged. -/
def handle_binary_message (states : List (List Char × F64))
    (data : List Nat) : List (List Char × F64) × Nat :=
  if data.length < 8 then (states, 0)
  else
    let bin_type := data.getD 0 0
    let identifier := data.getD 1 0
    let payload := data.drop 8
    let r1 :=
      if 24 ≤ data.length then try_parse_gen1_states states payload
      else (states, 0)
    if identifier = 5 ∧ bin_type = 209 then r1
    else if identifier = 245 ∨ identifier = 246 then
      let r2 := try_parse_gen1_states r1.1 payload
      (r2.1, r1.2 + r2.2)
    else if identifier = 94 then
      let r2 := try_parse_gen1_states r1.1 payload
      (r2.1, r1.2 + r2.2)
    else r1

/-- Written from the specification's words (C7's claimed plausibility
band): not NaN, and exactly 0 or 1, or `|v| ≤ 1000`, or `|v|` strictly
between `1e-30` and `1e+30`. -/
def spec_plausible_band (value : F64) : Bool :=
  match value with
  | .nan => false
  | .inf _ => false
  | .fin q =>
    decide (q = 0) || decide (q = 1) || decide (|q| ≤ 1000)
      || (decide (lit_1e_minus_30 < |q|) && decide (|q| < lit_1e_plus_30))

/-- A tiny negative float (exactly `-2⁻¹⁰⁰ ≈ -7.9e-31`): inside the spec's
claimed band (`|v| ≤ 1000`) but rejected by the code
(`0 <= value` fails and `abs(value) < 1e-30` holds). -/
def tiny_negative_value : F64 := .fin (mkRat (-1) (2 ^ 100))

/-! ## Lemmas -/

theorem dictGet_mem {α β : Type} [DecidableEq α] {k : α} {v : β}
    {l : List (α × β)} (h : dictGet k l = some v) : (k, v) ∈ l := by
  induction l with
  | nil => simp [dictGet] at h
  | cons p t ih =>
    rw [dictGet] at h
    by_cases hk : p.1 = k
    · rw [if_pos hk, Option.some_inj] at h
      have hp : (k, v) = p := by rw [← hk, ← h]
      rw [hp]
      exact List.mem_cons_self p t
    · rw [if_neg hk] at h
      exact List.mem_cons_of_mem _ (ih h)

theorem pyCharLower_fix (c : Char) (h : dictGet c LOWER_TABLE = none) :
    pyCharLower c = c := by
  simp [pyCharLower, h]

theorem pyCharLower_idem (c : Char) :
    pyCharLower (pyCharLower c) = pyCharLower c := by
  cases h : dictGet c LOWER_TABLE with
  | none =>
    have hfix : pyCharLower c = c := by simp [pyCharLower, h]
    simp only [hfix]
  | some d =>
    have hm : (c, d) ∈ LOWER_TABLE := dictGet_mem h
    have hd : ∀ p ∈ LOWER_TABLE, pyCharLower p.2 = p.2 := by decide
    have hcd : pyCharLower c = d := by simp [pyCharLower, h]
    rw [hcd]
    exact hd (c, d) hm

theorem isPySpace_pyCharLower (c : Char) :
    isPySpace (pyCharLower c) = isPySpace c := by
  cases h : dictGet c LOWER_TABLE with
  | none =>
    have hfix : pyCharLower c = c := by simp [pyCharLower, h]
    rw [hfix]
  | some d =>
    have hm : (c, d) ∈ LOWER_TABLE := dictGet_mem h
    have hd : ∀ p ∈ LOWER_TABLE, isPySpace p.2 = isPySpace p.1 := by decide
    have hcd : pyCharLower c = d := by simp [pyCharLower, h]
    rw [hcd]
    exact hd (c, d) hm

theorem pyLower_idem (s : List Char) : pyLower (pyLower s) = pyLower s := by
  induction s with
  | nil => rfl
  | cons c t ih => simp [pyLower] at ih ⊢; simp [pyCharLower_idem, ih]

theorem dropWhile_pyLower (s : List Char) :
    List.dropWhile isPySpace (pyLower s)
      = pyLower (List.dropWhile isPySpace s) := by
  have hfun : isPySpace ∘ pyCharLower = isPySpace := by
    funext c; exact isPySpace_pyCharLower c
  rw [pyLower, List.dropWhile_map, hfun, pyLower]

theorem pyLower_reverse (l : List Char) :
    pyLower l.reverse = (pyLower l).reverse := by
  simp [pyLower, List.map_reverse]

theorem rdropWhile_pyLower (s : List Char) :
    List.rdropWhile isPySpace (pyLower s)
      = pyLower (List.rdropWhile isPySpace s) := by
  rw [List.rdropWhile, List.rdropWhile, ← pyLower_reverse, dropWhile_pyLower,
    pyLower_reverse]

theorem pyStrip_pyLower (s : List Char) :
    pyStrip (pyLower s) = pyLower (pyStrip s) := by
  rw [pyStrip, pyStrip, dropWhile_pyLower, rdropWhile_pyLower]

theorem dropWhile_rdropWhile_dropWhile (s : List Char) :
    List.dropWhile isPySpace
        (List.rdropWhile isPySpace (List.dropWhile isPySpace s))
      = List.rdropWhile isPySpace (List.dropWhile isPySpace s) := by
  cases hb : List.rdropWhile isPySpace (List.dropWhile isPySpace s) with
  | nil => rfl
  | cons c t =>
    have hpre : (c :: t) <+: List.dropWhile isPySpace s := by
      rw [← hb]; exact List.rdropWhile_prefix _ _
    obtain ⟨r, hr⟩ := hpre
    have h1 : (List.dropWhile isPySpace s).head? = some c := by
      rw [← hr]; rfl
    have h0 := List.head?_dropWhile_not isPySpace s
    rw [h1] at h0
    simp only [List.dropWhile_cons, h0, if_false, Bool.false_eq_true]

theorem pyStrip_idem (s : List Char) : pyStrip (pyStrip s) = pyStrip s := by
  rw [pyStrip, pyStrip, dropWhile_rdropWhile_dropWhile,
    List.rdropWhile_idempotent]

theorem pretrans_idem (s : List Char) :
    pyStrip (pyLower (pyStrip (pyLower s))) = pyStrip (pyLower s) := by
  rw [← pyStrip_pyLower, pyLower_idem, pyStrip_idem]

/-- C9: action normalization is idempotent — applying the
lowercase/strip/alias mapping of `normalize_action` a second time never
changes the result. -/
theorem normalize_action_idempotent (x : List Char) :
    normalize_action (normalize_action x) = normalize_action x := by
  unfold normalize_action
  cases h : dictGet (pyStrip (pyLower x)) ACTION_ALIASES with
  | none =>
    simp only [h, Option.getD_none]
    rw [pretrans_idem, h]
    rfl
  | some v =>
    simp only [h, Option.getD_some]
    have hm : (pyStrip (pyLower x), v) ∈ ACTION_ALIASES := dictGet_mem h
    have hv : ∀ p ∈ ACTION_ALIASES,
        (dictGet (pyStrip (pyLower p.2)) ACTION_ALIASES).getD
            (pyStrip (pyLower p.2)) = p.2 := by decide
    exact hv _ hm

/-- C10: the human-readable label function maps boolean inputs as if they
were the numbers 0 and 1 — `False ↦ "OPEN"`, `True ↦ "CLOSED"` — because
Python's `value == 0` / `value == 1` checks match booleans before the
string branch is reached. -/
theorem human_readable_state_maps_bools :
    get_human_readable_state (.bool false) = "OPEN".data
      ∧ get_human_readable_state (.bool true) = "CLOSED".data := by
  constructor <;> rfl

/-- C4 counterexample: with `hashAlg = "SHA-512"` the handshake does not
fail with `protocolUnsupported`; it succeeds and the hasher silently
defaults to SHA1. -/
theorem acquire_token_sha512_counterexample :
    (acquire_token "pw".data "admin".data
        ⟨"200".data, ⟨"0AF1".data, "1C".data, some "SHA-512".data⟩⟩
        ⟨"200".data, ⟨"tok".data, some 12345, some 1666, some "9A".data⟩⟩
      ≠ .error .protocolUnsupported)
    ∧ ((acquire_token "pw".data "admin".data
        ⟨"200".data, ⟨"0AF1".data, "1C".data, some "SHA-512".data⟩⟩
        ⟨"200".data, ⟨"tok".data, some 12345, some 1666, some "9A".data⟩⟩).toOption.map
          TokenSession.used_hash_alg = some .sha1) := by decide

/-- C4 amended: the token handshake never fails with
`protocolUnsupported`; any `hashAlg` whose uppercase form is not
`"SHA256"` (SHA-512 or any unknown value included) makes the client
proceed with SHA1 as the default hash algorithm. -/
theorem acquire_token_unknown_hashalg_defaults_sha1 :
    (∀ (pw user : List Char) (kr : GetKey2Resp) (tr : GetJwtResp),
      acquire_token pw user kr tr ≠ .error .protocolUnsupported)
    ∧ (∀ alg : List Char, pyUpper alg ≠ "SHA256".data →
        select_hash_algorithm alg = .sha1) := by
  constructor
  · intro pw user kr tr
    unfold acquire_token
    split_ifs <;> simp
  · intro alg h
    unfold select_hash_algorithm
    rw [if_neg h]

/-- Witness for `acquire_token_unknown_hashalg_defaults_sha1` at the
concrete unknown algorithm `"MD5"`. -/
theorem acquire_token_unknown_hashalg_witness :
    (pyUpper "MD5".data ≠ "SHA256".data)
      ∧ select_hash_algorithm "MD5".data = .sha1 :=
  ⟨by decide, acquire_token_unknown_hashalg_defaults_sha1.2 "MD5".data (by decide)⟩

/-- C1 counterexample: after two consecutive 401 responses the client does
not surface `Unauthorized` — it has performed two token re-acquisitions
and returns the third response's value. -/
theorem send_command_double_401_counterexample :
    send_command
        [⟨"401".data, "".data⟩, ⟨"401".data, "".data⟩, ⟨"200".data, "42".data⟩]
        ⟨some "jwt0".data, 0⟩
      = .ok ("42".data, ⟨some "refreshed-jwt".data, 2⟩)
    ∧ send_command
        [⟨"401".data, "".data⟩, ⟨"401".data, "".data⟩, ⟨"200".data, "42".data⟩]
        ⟨some "jwt0".data, 0⟩ ≠ .error .unauthorized := by decide

/-- C1 amended: on a 401 `LL` code the client re-acquires a token and
retries recursively with no retry bound — `n` consecutive 401 responses
followed by a success yield that success after exactly `n` re-acquisitions
— and no run of `send_command` ever surfaces `unauthorized`. -/
theorem send_command_retries_unbounded :
    (∀ (responses : List CmdResp) (s : TokenClientState),
      send_command responses s ≠ .error .unauthorized)
    ∧ (∀ (n : Nat) (v : List Char) (s : TokenClientState) (t : List Char),
        s.token = some t →
        send_command
            (List.replicate n ⟨"401".data, "".data⟩ ++ [⟨"200".data, v⟩]) s
          = .ok (v, if n = 0 then s
              else ⟨some "refreshed-jwt".data, s.acquisitions + n⟩)) := by
  constructor
  · intro responses
    induction responses with
    | nil =>
      intro s h
      rw [send_command] at h
      simp at h
    | cons r rest ih =>
      intro s h
      rw [send_command] at h
      split at h
      · simp at h
      · split at h
        · exact ih _ h
        · exact Except.noConfusion h
  · intro n
    induction n with
    | zero =>
      intro v s t h
      simp [send_command, refresh_token_if_needed, h]
    | succ n ih =>
      intro v s t h
      have h1 : refresh_token_if_needed s = s := by
        rw [refresh_token_if_needed, h]
      simp only [List.replicate_succ, List.cons_append]
      rw [send_command, h1, h]
      simp only [if_pos rfl]
      rw [ih v (acquire_token_again s) "refreshed-jwt".data rfl]
      cases n with
      | zero => simp [acquire_token_again]
      | succ m =>
        simp [acquire_token_again]
        omega

/-- Witness for `send_command_retries_unbounded` at one 401 followed by a
success. -/
theorem send_command_retries_witness :
    (⟨some "jwt0".data, (0 : Nat)⟩ : TokenClientState).token
        = some "jwt0".data
    ∧ send_command
        (List.replicate 1 ⟨"401".data, "".data⟩ ++ [⟨"200".data, "ok".data⟩])
        ⟨some "jwt0".data, 0⟩
      = .ok ("ok".data, if 1 = 0 then ⟨some "jwt0".data, 0⟩
          else ⟨some "refreshed-jwt".data, 0 + 1⟩) :=
  ⟨rfl, send_command_retries_unbounded.2 1 "ok".data ⟨some "jwt0".data, 0⟩
    "jwt0".data rfl⟩

theorem best_fold_snd_le (s : DiscoveredSensor) (uv : Finset ℚ) :
    ∀ (l : List (List Char × Criteria)) (init : List Char × ℚ),
      init.2 ≤ (l.foldl (best_step s uv) init).2 := by
  intro l
  induction l with
  | nil => intro init; exact le_refl _
  | cons p t ih =>
    intro init
    rw [List.foldl_cons]
    refine le_trans ?_ (ih (best_step s uv init p))
    simp only [best_step]
    split_ifs with h
    · exact le_of_lt h
    · exact le_refl _

theorem best_fold_eq_init_or_lt (s : DiscoveredSensor) (uv : Finset ℚ) :
    ∀ (l : List (List Char × Criteria)) (init : List Char × ℚ),
      (l.foldl (best_step s uv) init) = init
      ∨ init.2 < (l.foldl (best_step s uv) init).2 := by
  intro l
  induction l with
  | nil => intro init; exact Or.inl rfl
  | cons p t ih =>
    intro init
    rw [List.foldl_cons]
    by_cases h : init.2 < calculate_category_score s uv p.2
    · right
      have h1 : best_step s uv init p = (p.1, calculate_category_score s uv p.2) := by
        simp only [best_step]; rw [if_pos h]
      calc init.2 < calculate_category_score s uv p.2 := h
        _ = (best_step s uv init p).2 := by rw [h1]
        _ ≤ _ := best_fold_snd_le s uv t _
    · have h1 : best_step s uv init p = init := by
        simp only [best_step]; rw [if_neg h]
      rw [h1]
      exact ih init

theorem best_fold_mem (s : DiscoveredSensor) (uv : Finset ℚ) :
    ∀ (l : List (List Char × Criteria)) (init : List Char × ℚ),
      (l.foldl (best_step s uv) init) = init
      ∨ ∃ p ∈ l, (l.foldl (best_step s uv) init)
          = (p.1, calculate_category_score s uv p.2) := by
  intro l
  induction l with
  | nil => intro init; exact Or.inl rfl
  | cons p t ih =>
    intro init
    rw [List.foldl_cons]
    by_cases h : init.2 < calculate_category_score s uv p.2
    · have h1 : best_step s uv init p = (p.1, calculate_category_score s uv p.2) := by
        simp only [best_step]; rw [if_pos h]
      rw [h1]
      rcases ih (p.1, calculate_category_score s uv p.2) with h2 | ⟨q, hq, h2⟩
      · exact Or.inr ⟨p, List.mem_cons_self p t, h2⟩
      · exact Or.inr ⟨q, List.mem_cons_of_mem _ hq, h2⟩
    · have h1 : best_step s uv init p = init := by
        simp only [best_step]; rw [if_neg h]
      rw [h1]
      rcases ih init with h2 | ⟨q, hq, h2⟩
      · exact Or.inl h2
      · exact Or.inr ⟨q, List.mem_cons_of_mem _ hq, h2⟩

theorem best_fold_ge_scores (s : DiscoveredSensor) (uv : Finset ℚ) :
    ∀ (l : List (List Char × Criteria)) (init : List Char × ℚ)
      (p : List Char × Criteria), p ∈ l →
      calculate_category_score s uv p.2 ≤ (l.foldl (best_step s uv) init).2 := by
  intro l
  induction l with
  | nil => intro init p hp; exact absurd hp (List.not_mem_nil p)
  | cons q t ih =>
    intro init p hp
    rw [List.foldl_cons]
    rcases List.mem_cons.mp hp with rfl | hp'
    · refine le_trans ?_ (best_fold_snd_le s uv t (best_step s uv init p))
      simp only [best_step]
      split_ifs with h
      · exact le_refl _
      · exact le_of_not_lt h
    · exact ih _ p hp'

theorem best_category_eq_door (s : DiscoveredSensor) (uv : Finset ℚ)
    (h : (best_category s uv).1 = "door_window".data) :
    0 < calculate_category_score s uv door_window_criteria
    ∧ calculate_category_score s uv motion_criteria
        ≤ calculate_category_score s uv door_window_criteria := by
  have hd : best_category s uv = ("door_window".data,
      calculate_category_score s uv door_window_criteria) := by
    rcases best_fold_mem s uv SENSOR_CATEGORIES ("unknown".data, 0) with h1 | ⟨p, hp, h1⟩
    · rw [best_category] at h
      rw [h1] at h
      exact absurd (show "unknown".data = "door_window".data from h) (by decide)
    · rw [best_category] at h ⊢
      rw [h1] at h ⊢
      fin_cases hp
      · rfl
      · exact absurd (show "motion".data = "door_window".data from h) (by decide)
      · exact absurd (show "analog".data = "door_window".data from h) (by decide)
      · exact absurd (show "noisy".data = "door_window".data from h) (by decide)
  constructor
  · rcases best_fold_eq_init_or_lt s uv SENSOR_CATEGORIES ("unknown".data, 0) with h1 | h1
    · rw [best_category] at hd
      rw [h1] at hd
      exact absurd (show "unknown".data = "door_window".data from congrArg Prod.fst hd)
        (by decide)
    · rw [best_category] at hd
      rw [hd] at h1
      exact h1
  · have hm : ("motion".data, motion_criteria) ∈ SENSOR_CATEGORIES := by
      simp [SENSOR_CATEGORIES]
    have h2 := best_fold_ge_scores s uv SENSOR_CATEGORIES ("unknown".data, 0) _ hm
    rw [best_category] at hd
    rw [hd] at h2
    exact h2

theorem analyze_sensor_category (now : ℚ) (s : DiscoveredSensor) :
    (analyze_sensor now s).category
      = (best_category s s.value_history.toFinset).1 := by
  simp only [analyze_sensor]
  split_ifs <;> rfl

theorem dw_score_of_violation (s : DiscoveredSensor) (uv : Finset ℚ)
    (h : ¬ uv ⊆ ({0, 1} : Finset ℚ) ∨ uv.card < 2) :
    calculate_category_score s uv door_window_criteria = 0 := by
  rcases h with h | h
  · simp [calculate_category_score, door_window_criteria, h]
  · by_cases hsub : uv ⊆ ({0, 1} : Finset ℚ)
    · have h2 : ¬ (2 ≤ uv.card) := by omega
      simp [calculate_category_score, door_window_criteria, hsub, h2]
    · simp [calculate_category_score, door_window_criteria, hsub]

theorem dw_score_pos_implies (s : DiscoveredSensor) (uv : Finset ℚ)
    (h : 0 < calculate_category_score s uv door_window_criteria) :
    uv ⊆ ({0, 1} : Finset ℚ) ∧ 2 ≤ uv.card := by
  by_cases h1 : uv ⊆ ({0, 1} : Finset ℚ)
  · by_cases h2 : 2 ≤ uv.card
    · exact ⟨h1, h2⟩
    · rw [dw_score_of_violation s uv (Or.inr (by omega))] at h
      exact absurd h (lt_irrefl 0)
  · rw [dw_score_of_violation s uv (Or.inl h1)] at h
    exact absurd h (lt_irrefl 0)

theorem dw_score_high_count (s : DiscoveredSensor) (uv : Finset ℚ)
    (hsub : uv ⊆ ({0, 1} : Finset ℚ)) (hcard : 2 ≤ uv.card)
    (hcnt : 5 ≤ s.update_count) :
    calculate_category_score s uv door_window_criteria = 7/10 := by
  have h3 : ¬ (s.update_count ≤ 3) := by omega
  have h1 : (1 : Nat) ≤ s.update_count := by omega
  have hcq : (5 : ℚ) ≤ (s.update_count : ℚ) := by exact_mod_cast hcnt
  simp [calculate_category_score, door_window_criteria, hsub, hcard, h3, h1]
  rw [sup_eq_left.mpr (by linarith : (20 - ((s.update_count : ℚ) - 3) * 10) ≤ 0)]
  norm_num

theorem motion_score_low_bound (s : DiscoveredSensor) (uv : Finset ℚ)
    (hsub : uv ⊆ ({0, 1} : Finset ℚ)) (hcnt : 5 ≤ s.update_count) :
    53/75 ≤ calculate_category_score s uv motion_criteria := by
  have h5 : (5 : Nat) ≤ s.update_count := hcnt
  by_cases hc : s.update_count ≤ 100
  · simp [calculate_category_score, motion_criteria, hsub, hc, h5]
    norm_num
  · simp [calculate_category_score, motion_criteria, hsub, hc, h5]
    have hx : (0 : ℚ) ≤ 0 ⊔ (20 - ((s.update_count : ℚ) - 100) * 10) := le_sup_left
    rw [if_pos (by norm_num : (0 : ℚ) < 30 + 20 + 15 + 10)]
    rw [div_le_div_iff₀ (by norm_num) (by norm_num)]
    linarith

/-- C2 amended: a sensor whose final category is `door_window` has a
strictly binary unique-value set (`⊆ {0, 1}`), at least two distinct
observed values (a 0/1 transition), and `update_count ≤ 4` (not `≤ 3` as
claimed: a count of 4 is only penalized, see the counterexample); and any
sensor violating the binary-only or transition requirement scores 0 for
`door_window` and is never classified `door_window`. -/
theorem door_window_classification_sound (now : ℚ) (s : DiscoveredSensor) :
    ((analyze_sensor now s).category = "door_window".data →
      s.value_history.toFinset ⊆ ({0, 1} : Finset ℚ)
      ∧ 2 ≤ s.value_history.toFinset.card
      ∧ s.update_count ≤ 4)
    ∧ ((¬ s.value_history.toFinset ⊆ ({0, 1} : Finset ℚ)
          ∨ s.value_history.toFinset.card < 2) →
      calculate_category_score s s.value_history.toFinset door_window_criteria = 0
      ∧ (analyze_sensor now s).category ≠ "door_window".data) := by
  constructor
  · intro h
    rw [analyze_sensor_category] at h
    obtain ⟨hd, hm⟩ := best_category_eq_door _ _ h
    obtain ⟨hsub, hcard⟩ := dw_score_pos_implies _ _ hd
    refine ⟨hsub, hcard, ?_⟩
    by_contra hcnt
    have hc5 : 5 ≤ s.update_count := by omega
    have h1 := dw_score_high_count s _ hsub hcard hc5
    have h2 := motion_score_low_bound s _ hsub hc5
    rw [h1] at hm
    have h3 : (53 : ℚ)/75 ≤ 7/10 := le_trans h2 hm
    norm_num at h3
  · intro h
    have h0 := dw_score_of_violation s _ h
    refine ⟨h0, ?_⟩
    intro hcat
    rw [analyze_sensor_category] at hcat
    have hd := (best_category_eq_door _ _ hcat).1
    rw [h0] at hd
    exact absurd hd (lt_irrefl 0)

theorem dictGet_dictSet_self {α β : Type} [DecidableEq α] {k : α} {v : β} :
    ∀ {l : List (α × β)}, (dictGet k l).isSome →
      dictGet k (dictSet k v l) = some v := by
  intro l
  induction l with
  | nil => intro h; simp [dictGet] at h
  | cons p t ih =>
    intro h
    by_cases hk : p.1 = k
    · simp [dictSet, hk, dictGet]
    · rw [dictGet, if_neg hk] at h
      rw [dictSet, if_neg hk, dictGet, if_neg hk]
      exact ih h

theorem dictGet_dictSet_ne {α β : Type} [DecidableEq α] {k k' : α} (v : β)
    (hne : k' ≠ k) :
    ∀ (l : List (α × β)), dictGet k' (dictSet k v l) = dictGet k' l := by
  intro l
  induction l with
  | nil => rfl
  | cons p t ih =>
    by_cases hk : p.1 = k
    · have h1 : ¬ (((k, v) : α × β).1 = k') := fun hc => hne hc.symm
      have h2 : ¬ (p.1 = k') := fun hc => hne (hk.symm.trans hc).symm
      rw [dictSet, if_pos hk, dictGet, dictGet, if_neg h1, if_neg h2]
    · rw [dictSet, if_neg hk, dictGet, dictGet]
      by_cases hp : p.1 = k'
      · rw [if_pos hp, if_pos hp]
      · rw [if_neg hp, if_neg hp]
        exact ih

theorem dictGet_append_of_some {α β : Type} [DecidableEq α] {k : α} {v : β}
    {l1 : List (α × β)} (l2 : List (α × β)) (h : dictGet k l1 = some v) :
    dictGet k (l1 ++ l2) = some v := by
  induction l1 with
  | nil => simp [dictGet] at h
  | cons p t ih =>
    rw [dictGet] at h
    by_cases hk : p.1 = k
    · rw [List.cons_append, dictGet, if_pos hk]
      rw [if_pos hk] at h
      exact h
    · rw [List.cons_append, dictGet, if_neg hk]
      rw [if_neg hk] at h
      exact ih h

theorem dictGet_append_of_none {α β : Type} [DecidableEq α] {k : α}
    {l1 : List (α × β)} (l2 : List (α × β)) (h : dictGet k l1 = Option.none) :
    dictGet k (l1 ++ l2) = dictGet k l2 := by
  induction l1 with
  | nil => rfl
  | cons p t ih =>
    rw [dictGet] at h
    by_cases hk : p.1 = k
    · rw [if_pos hk] at h
      exact absurd h (by simp)
    · rw [List.cons_append, dictGet, if_neg hk]
      rw [if_neg hk] at h
      exact ih h

theorem on_state_update_inv (t : ℚ) (u : List Char) (v : ℚ)
    (sensors : List (List Char × DiscoveredSensor)) (n : Nat)
    (h : ∀ u' s, dictGet u' sensors = some s →
      s.value_history.length = s.update_count ∧ s.update_count ≤ n) :
    ∀ u' s, dictGet u' (on_state_update t u v sensors) = some s →
      s.value_history.length = s.update_count ∧ s.update_count ≤ n + 1 := by
  intro u' s hs
  rw [on_state_update] at hs
  cases hg : dictGet u sensors with
  | some sensor =>
    simp only [hg] at hs
    split_ifs at hs with hv
    · by_cases hu : u' = u
      · subst hu
        rw [dictGet_dictSet_self (by rw [hg]; rfl)] at hs
        obtain ⟨h1, h2⟩ := h u' sensor hg
        rw [Option.some_inj] at hs
        subst hs
        constructor
        · simp [h1]
        · simp
          omega
      · rw [dictGet_dictSet_ne _ hu] at hs
        obtain ⟨h1, h2⟩ := h u' s hs
        exact ⟨h1, by omega⟩
    · obtain ⟨h1, h2⟩ := h u' s hs
      exact ⟨h1, by omega⟩
  | none =>
    simp only [hg] at hs
    cases hg' : dictGet u' sensors with
    | some w =>
      rw [dictGet_append_of_some _ hg'] at hs
      rw [Option.some_inj] at hs
      subst hs
      obtain ⟨h1, h2⟩ := h u' w hg'
      exact ⟨h1, by omega⟩
    | none =>
      rw [dictGet_append_of_none _ hg'] at hs
      rw [dictGet] at hs
      by_cases hu : u = u'
      · rw [if_pos hu] at hs
        rw [Option.some_inj] at hs
        subst hs
        exact ⟨rfl, Nat.succ_le_succ (Nat.zero_le n)⟩
      · rw [if_neg hu, dictGet] at hs
        exact absurd hs (by simp)

theorem run_discovery_foldl_inv :
    ∀ (events : List (ℚ × List Char × ℚ))
      (sensors : List (List Char × DiscoveredSensor)) (n : Nat),
      (∀ u' s, dictGet u' sensors = some s →
        s.value_history.length = s.update_count ∧ s.update_count ≤ n) →
      (∀ u' s, dictGet u'
          (events.foldl (fun ss e => on_state_update e.1 e.2.1 e.2.2 ss) sensors)
            = some s →
        s.value_history.length = s.update_count
        ∧ s.update_count ≤ n + events.length) := by
  intro events
  induction events with
  | nil => intro sensors n h; simpa using h
  | cons e rest ih =>
    intro sensors n h
    rw [List.foldl_cons]
    have h1 := ih (on_state_update e.1 e.2.1 e.2.2 sensors) (n + 1)
      (on_state_update_inv e.1 e.2.1 e.2.2 sensors n h)
    intro u' s hs
    obtain ⟨ha, hb⟩ := h1 u' s hs
    refine ⟨ha, ?_⟩
    rw [List.length_cons]
    omega

/-- C3 amended: `on_state_update` enforces no cap on `value_history`; its
length always equals `update_count` and is bounded only by the number of
update events delivered, not by any fixed constant. -/
theorem value_history_length_eq_update_count :
    ∀ (events : List (ℚ × List Char × ℚ)) (u : List Char) (s : DiscoveredSensor),
      dictGet u (run_discovery events) = some s →
      s.value_history.length = s.update_count ∧ s.update_count ≤ events.length := by
  intro events u s hs
  have h := run_discovery_foldl_inv events [] 0
    (by intro u' s' h'; simp [dictGet] at h') u s
  rw [run_discovery] at hs
  simpa using h hs

/-- Witness for `value_history_length_eq_update_count` at one concrete
event. -/
theorem value_history_length_witness :
    dictGet "u0".data (run_discovery [((0 : ℚ), "u0".data, (5 : ℚ))])
        = some fresh_example_sensor
    ∧ (fresh_example_sensor.value_history.length
          = fresh_example_sensor.update_count
        ∧ fresh_example_sensor.update_count
            ≤ ([((0 : ℚ), "u0".data, (5 : ℚ))] : List (ℚ × List Char × ℚ)).length) :=
  ⟨by decide, value_history_length_eq_update_count
    [((0 : ℚ), "u0".data, (5 : ℚ))] "u0".data fresh_example_sensor (by decide)⟩

/-- C3 counterexample: 65 alternating 0/1 updates for one UUID leave a
`value_history` of length 65, exceeding the claimed cap (the spec's
example constant is 64); no configured cap exists in `on_state_update`. -/
theorem value_history_cap_counterexample :
    (dictGet "u1".data (run_discovery history_cap_events)).map
        (fun s => s.value_history.length) = some 65
    ∧ ¬ (65 ≤ 64) := ⟨by decide, by decide⟩

/-- C2 counterexample: a strictly binary sensor with history `[0, 1, 0, 1]`
and `update_count = 4` is still classified `door_window` (score 0.8 beats
motion's 58/75), violating the claimed `update_count ≤ 3` bound. -/
theorem door_window_update_count_counterexample :
    ((dictGet "d1".data (analyze_discovered_sensors 10 (run_discovery
        [((0 : ℚ), "d1".data, (0 : ℚ)), (1, "d1".data, 1),
         (2, "d1".data, 0), (3, "d1".data, 1)]))).map
      (fun s => (s.category, s.update_count))) = some ("door_window".data, 4)
    ∧ ¬ ((4 : Nat) ≤ 3) := by
  constructor
  · norm_num [run_discovery, on_state_update, dictGet, dictSet,
      analyze_discovered_sensors, analyze_sensor, best_category, best_step,
      SENSOR_CATEGORIES, calculate_category_score, calculate_pattern_score,
      door_window_criteria, motion_criteria, analog_criteria, noisy_criteria]
  · decide

/-- Witness for `door_window_classification_sound` at a concrete
`door_window`-classified sensor and at a concrete non-binary sensor. -/
theorem door_window_classification_sound_witness :
    ((analyze_sensor 0 dw_example_sensor).category = "door_window".data
      ∧ (dw_example_sensor.value_history.toFinset ⊆ ({0, 1} : Finset ℚ)
        ∧ 2 ≤ dw_example_sensor.value_history.toFinset.card
        ∧ dw_example_sensor.update_count ≤ 4))
    ∧ ((¬ nonbinary_example_sensor.value_history.toFinset ⊆ ({0, 1} : Finset ℚ)
          ∨ nonbinary_example_sensor.value_history.toFinset.card < 2)
      ∧ (calculate_category_score nonbinary_example_sensor
            nonbinary_example_sensor.value_history.toFinset door_window_criteria = 0
        ∧ (analyze_sensor 0 nonbinary_example_sensor).category
            ≠ "door_window".data)) := by
  have hcat : (analyze_sensor 0 dw_example_sensor).category
      = "door_window".data := by
    norm_num [analyze_sensor, best_category, SENSOR_CATEGORIES, best_step,
      calculate_category_score, calculate_pattern_score, door_window_criteria,
      motion_criteria, analog_criteria, noisy_criteria, dw_example_sensor]
  have hviol : ¬ nonbinary_example_sensor.value_history.toFinset
        ⊆ ({0, 1} : Finset ℚ)
      ∨ nonbinary_example_sensor.value_history.toFinset.card < 2 :=
    Or.inl (by decide)
  exact ⟨⟨hcat, (door_window_classification_sound 0 dw_example_sensor).1 hcat⟩,
    ⟨hviol, (door_window_classification_sound 0 nonbinary_example_sensor).2 hviol⟩⟩

theorem ring_append_length_le (m : Nat) (es : List StateChangeEvent)
    (e : StateChangeEvent) : (ring_append m es e).length ≤ m := by
  simp only [ring_append]
  split_ifs with h
  · rw [List.length_drop]
    omega
  · rw [List.length_append] at h ⊢
    omega

theorem length_dictSet {α β : Type} [DecidableEq α] (k : α) (v : β) :
    ∀ (l : List (α × β)), (dictSet k v l).length = l.length := by
  intro l
  induction l with
  | nil => rfl
  | cons p t ih =>
    rw [dictSet]
    split_ifs
    · rfl
    · rw [List.length_cons, List.length_cons, ih]

theorem mem_dictSet {α β : Type} [DecidableEq α] {k : α} {v : β}
    {q : α × β} : ∀ {l : List (α × β)}, q ∈ dictSet k v l →
      q = (k, v) ∨ q ∈ l := by
  intro l
  induction l with
  | nil => intro h; simp [dictSet] at h
  | cons p t ih =>
    intro h
    rw [dictSet] at h
    split_ifs at h
    · rcases List.mem_cons.mp h with h | h
      · exact Or.inl h
      · exact Or.inr (List.mem_cons_of_mem _ h)
    · rcases List.mem_cons.mp h with h | h
      · exact Or.inr (h ▸ List.mem_cons_self p t)
      · rcases ih h with h | h
        · exact Or.inl h
        · exact Or.inr (List.mem_cons_of_mem _ h)

theorem mem_remove_key {α β : Type} [DecidableEq α] {k : α} {q : α × β} :
    ∀ {l : List (α × β)}, q ∈ remove_key k l → q ∈ l := by
  intro l
  induction l with
  | nil => intro h; simp [remove_key] at h
  | cons p t ih =>
    intro h
    rw [remove_key] at h
    split_ifs at h
    · exact List.mem_cons_of_mem _ h
    · rcases List.mem_cons.mp h with h | h
      · exact h ▸ List.mem_cons_self p t
      · exact List.mem_cons_of_mem _ (ih h)

theorem length_remove_key_of_mem {α β : Type} [DecidableEq α] {k : α} :
    ∀ {l : List (α × β)}, (∃ p ∈ l, p.1 = k) →
      (remove_key k l).length + 1 = l.length := by
  intro l
  induction l with
  | nil => intro ⟨p, hp, _⟩; simp at hp
  | cons p t ih =>
    intro ⟨q, hq, hqk⟩
    rw [remove_key]
    split_ifs with h
    · rfl
    · rcases List.mem_cons.mp hq with rfl | hq'
      · exact absurd hqk h
      · rw [List.length_cons, List.length_cons, ← ih ⟨q, hq', hqk⟩]

theorem dictGet_eq_none_iff {α β : Type} [DecidableEq α] {k : α} :
    ∀ {l : List (α × β)}, dictGet k l = Option.none ↔ ∀ p ∈ l, p.1 ≠ k := by
  intro l
  induction l with
  | nil => simp [dictGet]
  | cons p t ih =>
    rw [dictGet]
    by_cases hp : p.1 = k
    · rw [if_pos hp]
      constructor
      · intro h
        exact Option.noConfusion h
      · intro h
        exact absurd hp (h p (List.mem_cons_self p t))
    · rw [if_neg hp]
      constructor
      · intro h q hq
        rcases List.mem_cons.mp hq with rfl | hq'
        · exact hp
        · exact ih.mp h q hq'
      · intro h
        exact ih.mpr (fun q hq => h q (List.mem_cons_of_mem _ hq))

theorem dictGet_remove_key_none {α β : Type} [DecidableEq α] {u k : α}
    {l : List (α × β)} (h : dictGet u l = Option.none) :
    dictGet u (remove_key k l) = Option.none :=
  dictGet_eq_none_iff.mpr
    (fun p hp => dictGet_eq_none_iff.mp h p (mem_remove_key hp))

theorem min_last_updated_mem :
    ∀ (t : List (List Char × SensorStateHistory))
      (h : List Char × SensorStateHistory),
      min_last_updated h t ∈ h :: t := by
  intro t
  induction t with
  | nil => intro h; exact List.mem_cons_self h []
  | cons q t ih =>
    intro h
    rw [min_last_updated, List.foldl_cons]
    have h1 := ih (if q.2.last_updated < h.2.last_updated then q else h)
    rw [min_last_updated] at h1
    rcases List.mem_cons.mp h1 with h2 | h2
    · rw [h2]
      split_ifs
      · exact List.mem_cons_of_mem _ (List.mem_cons_self q t)
      · exact List.mem_cons_self h (q :: t)
    · exact List.mem_cons_of_mem _ (List.mem_cons_of_mem _ h2)

theorem min_last_updated_le :
    ∀ (t : List (List Char × SensorStateHistory))
      (h : List Char × SensorStateHistory),
      ∀ p ∈ h :: t, (min_last_updated h t).2.last_updated
        ≤ p.2.last_updated := by
  intro t
  induction t with
  | nil =>
    intro h p hp
    rcases List.mem_cons.mp hp with rfl | hp'
    · exact le_refl _
    · exact absurd hp' (List.not_mem_nil p)
  | cons q t ih =>
    intro h p hp
    rw [min_last_updated, List.foldl_cons]
    have hmin : ∀ r ∈ (if q.2.last_updated < h.2.last_updated then q else h) :: t,
        (min_last_updated (if q.2.last_updated < h.2.last_updated then q else h) t).2.last_updated
          ≤ r.2.last_updated := ih _
    rw [min_last_updated] at hmin
    have hh : (List.foldl (fun acc p => if p.2.last_updated < acc.2.last_updated then p else acc)
        (if q.2.last_updated < h.2.last_updated then q else h) t).2.last_updated
          ≤ (if q.2.last_updated < h.2.last_updated then q else h).2.last_updated :=
      hmin _ (List.mem_cons_self _ _)
    rcases List.mem_cons.mp hp with rfl | hp'
    · refine le_trans hh ?_
      split_ifs with hq
      · exact le_of_lt hq
      · exact le_refl _
    · rcases List.mem_cons.mp hp' with rfl | hp''
      · refine le_trans hh ?_
        split_ifs with hq
        · exact le_refl _
        · exact le_of_not_lt hq
      · exact hmin p (List.mem_cons_of_mem _ hp'')

theorem log_state_change_step_inv (cfg : LoggerConfig)
    (hms : 1 ≤ cfg.max_sensors) (c : LogCall)
    (hs : List (List Char × SensorStateHistory))
    (h1 : ∀ p ∈ hs, p.2.state_events.length ≤ cfg.max_events_per_sensor)
    (h2 : hs.length ≤ cfg.max_sensors) :
    (∀ p ∈ log_state_change cfg c hs,
      p.2.state_events.length ≤ cfg.max_events_per_sensor)
    ∧ (log_state_change cfg c hs).length ≤ cfg.max_sensors := by
  cases hs with
  | nil =>
    have hev : ¬ ((dictGet c.uuid ([] : List (List Char × SensorStateHistory))).isNone
        ∧ cfg.max_sensors ≤ ([] : List (List Char × SensorStateHistory)).length) := by
      simp only [List.length_nil]
      intro hc
      omega
    simp only [log_state_change, if_neg hev]
    constructor
    · intro p hp
      simp only [dictGet, List.nil_append, List.mem_singleton] at hp
      rw [hp]
      exact ring_append_length_le _ _ _
    · simp only [dictGet, List.nil_append, List.length_singleton]
      omega
  | cons h t =>
    by_cases hev : (dictGet c.uuid (h :: t)).isNone
        ∧ cfg.max_sensors ≤ (h :: t).length
    · simp only [log_state_change, if_pos hev]
      have hmem := min_last_updated_mem t h
      have hlen : (remove_key (min_last_updated h t).1 (h :: t)).length + 1
          = (h :: t).length :=
        length_remove_key_of_mem ⟨min_last_updated h t, hmem, rfl⟩
      have hget : dictGet c.uuid (remove_key (min_last_updated h t).1 (h :: t))
          = Option.none :=
        dictGet_remove_key_none (Option.isNone_iff_eq_none.mp hev.1)
      rw [hget]
      constructor
      · intro p hp
        rcases List.mem_append.mp hp with hp | hp
        · exact h1 p (mem_remove_key hp)
        · rw [List.mem_singleton] at hp
          rw [hp]
          exact ring_append_length_le _ _ _
      · rw [List.length_append, List.length_singleton]
        omega
    · simp only [log_state_change, if_neg hev]
      cases hget : dictGet c.uuid (h :: t) with
      | some w =>
        constructor
        · intro p hp
          rcases mem_dictSet hp with rfl | hp
          · exact ring_append_length_le _ _ _
          · exact h1 p hp
        · rw [length_dictSet]
          exact h2
      | none =>
        have hlen : (h :: t).length < cfg.max_sensors := by
          rcases Nat.lt_or_ge (h :: t).length cfg.max_sensors with hlt | hge
          · exact hlt
          · exact absurd ⟨by rw [hget]; rfl, hge⟩ hev
        constructor
        · intro p hp
          rcases List.mem_append.mp hp with hp | hp
          · exact h1 p hp
          · rw [List.mem_singleton] at hp
            rw [hp]
            exact ring_append_length_le _ _ _
        · rw [List.length_append, List.length_singleton]
          omega

/-- C8: the state-change log keeps every per-UUID ring buffer within
`max_events_per_sensor`, never tracks more than `max_sensors` UUIDs, and
when a new UUID would exceed `max_sensors` it evicts a tracked UUID with
the smallest `last_updated` (the first such, as Python's `min` does) and
then admits the new UUID. -/
theorem state_logger_bounds (cfg : LoggerConfig)
    (hms : 1 ≤ cfg.max_sensors) (calls : List LogCall) :
    (∀ p ∈ run_logger cfg calls,
      p.2.state_events.length ≤ cfg.max_events_per_sensor)
    ∧ (run_logger cfg calls).length ≤ cfg.max_sensors
    ∧ (∀ (hs : List (List Char × SensorStateHistory)) (c : LogCall),
        (dictGet c.uuid hs).isNone → cfg.max_sensors ≤ hs.length →
        ∃ w ∈ hs, (∀ p ∈ hs, w.2.last_updated ≤ p.2.last_updated)
          ∧ (log_state_change cfg c hs).map Prod.fst
              = (remove_key w.1 hs).map Prod.fst ++ [c.uuid]) := by
  have main : (∀ p ∈ run_logger cfg calls,
      p.2.state_events.length ≤ cfg.max_events_per_sensor)
      ∧ (run_logger cfg calls).length ≤ cfg.max_sensors := by
    rw [run_logger]
    have haux : ∀ (l : List LogCall) (hs : List (List Char × SensorStateHistory)),
        (∀ p ∈ hs, p.2.state_events.length ≤ cfg.max_events_per_sensor) →
        hs.length ≤ cfg.max_sensors →
        (∀ p ∈ l.foldl (fun hs c => log_state_change cfg c hs) hs,
          p.2.state_events.length ≤ cfg.max_events_per_sensor)
        ∧ (l.foldl (fun hs c => log_state_change cfg c hs) hs).length
            ≤ cfg.max_sensors := by
      intro l
      induction l with
      | nil => intro hs ha hb; exact ⟨ha, hb⟩
      | cons c rest ih =>
        intro hs ha hb
        rw [List.foldl_cons]
        obtain ⟨ha2, hb2⟩ := log_state_change_step_inv cfg hms c hs ha hb
        exact ih _ ha2 hb2
    exact haux calls [] (by intro p hp; simp at hp) (by simp)
  refine ⟨main.1, main.2, ?_⟩
  intro hs c hnone hfull
  cases hs with
  | nil =>
    simp only [List.length_nil] at hfull
    omega
  | cons h t =>
    refine ⟨min_last_updated h t, min_last_updated_mem t h,
      min_last_updated_le t h, ?_⟩
    simp only [log_state_change]
    rw [if_pos (show (dictGet c.uuid (h :: t)).isNone = true
        ∧ cfg.max_sensors ≤ (h :: t).length from ⟨hnone, hfull⟩)]
    have hget : dictGet c.uuid (remove_key (min_last_updated h t).1 (h :: t))
        = Option.none :=
      dictGet_remove_key_none (Option.isNone_iff_eq_none.mp hnone)
    rw [hget, List.map_append]
    rfl

/-- Witness for `state_logger_bounds` at a concrete configuration and
call list. -/
theorem state_logger_bounds_witness :
    (1 ≤ (⟨2, 2⟩ : LoggerConfig).max_sensors)
    ∧ ((∀ p ∈ run_logger ⟨2, 2⟩ witness_log_calls,
          p.2.state_events.length
            ≤ (⟨2, 2⟩ : LoggerConfig).max_events_per_sensor)
      ∧ (run_logger ⟨2, 2⟩ witness_log_calls).length
          ≤ (⟨2, 2⟩ : LoggerConfig).max_sensors
      ∧ (∀ (hs : List (List Char × SensorStateHistory)) (c : LogCall),
          (dictGet c.uuid hs).isNone
          → (⟨2, 2⟩ : LoggerConfig).max_sensors ≤ hs.length →
          ∃ w ∈ hs, (∀ p ∈ hs, w.2.last_updated ≤ p.2.last_updated)
            ∧ (log_state_change ⟨2, 2⟩ c hs).map Prod.fst
                = (remove_key w.1 hs).map Prod.fst ++ [c.uuid])) :=
  ⟨by decide, state_logger_bounds ⟨2, 2⟩ (by decide) witness_log_calls⟩

theorem getFile_setFile (p : List Char) (c : FileContent)
    (fs : List (List Char × FileContent)) :
    getFile p (setFile p c fs) = c := by
  rw [setFile]
  split_ifs with h
  · rw [getFile, dictGet_dictSet_self h]
    rfl
  · rw [getFile,
      dictGet_append_of_none _ (Option.not_isSome_iff_eq_none.mp h),
      dictGet, if_pos rfl]
    rfl

/-- C5 counterexample: the trace `persist_logs` emits is not of the
write-temp-then-rename form, and after its first operation (opening the
target itself with mode `"w"`) a reader of the log file observes it
truncated while the sync is still in progress. -/
theorem persist_logs_not_atomic_counterexample :
    spec_atomic_replace_pattern "sensor_state_log.json".data
        (persist_logs_trace "sensor_state_log.json".data example_log_data)
      = false
    ∧ getFile "sensor_state_log.json".data
        (run_fs [("sensor_state_log.json".data, .complete example_old_log_data)]
          ((persist_logs_trace "sensor_state_log.json".data
            example_log_data).take 1))
      = .truncated := by decide

/-- C5 amended: `persist_logs` serializes the full log directly into the
target file — truncate in place, then write — with no temporary file and
no rename anywhere in its trace; the final state carries the complete
data, but immediately after the truncating open the target is observably
empty, so a crash or concurrent reader mid-sync can see a truncated log
file. -/
theorem persist_logs_truncate_in_place (log_file : List Char)
    (d : LogFileData) (fs : List (List Char × FileContent)) :
    (∀ op ∈ persist_logs_trace log_file d, isRenameOp op = false)
    ∧ getFile log_file (run_fs fs (persist_logs_trace log_file d))
        = .complete d
    ∧ getFile log_file (run_fs fs ((persist_logs_trace log_file d).take 1))
        = .truncated := by
  refine ⟨?_, ?_, ?_⟩
  · intro op hop
    simp only [persist_logs_trace, List.mem_cons, List.mem_singleton,
      List.not_mem_nil, or_false] at hop
    rcases hop with rfl | rfl | rfl <;> rfl
  · simp only [persist_logs_trace, run_fs, List.foldl_cons, List.foldl_nil,
      apply_fs_op]
    exact getFile_setFile _ _ _
  · simp only [persist_logs_trace, List.take, run_fs, List.foldl_cons,
      List.foldl_nil, apply_fs_op]
    exact getFile_setFile _ _ _

theorem loop_short {payload : List Nat} (h : payload.length < 24)
    (fuel : Nat) (states : List (List Char × F64)) :
    try_parse_gen1_loop fuel states payload = (states, 0) := by
  cases fuel with
  | zero => rfl
  | succ k =>
    rw [try_parse_gen1_loop, if_neg (by omega)]

theorem scan_short {payload : List Nat} (h : payload.length < 24)
    (states : List (List Char × F64)) :
    try_parse_gen1_states states payload = (states, 0) :=
  loop_short h _ states

theorem uuid_hex_length : ∀ (bs : List Nat),
    ((bs.map byteHex).flatten).length = 2 * bs.length := by
  intro bs
  induction bs with
  | nil => rfl
  | cons b t ih =>
    rw [List.map_cons, List.flatten_cons, List.length_append, ih,
      List.length_cons]
    have hb : (byteHex b).length = 2 := rfl
    omega

theorem uuid_canonical_length {bs : List Nat} (h : bs.length = 16) :
    (uuid_canonical bs).length = 36 := by
  have h32 : ((bs.map byteHex).flatten).length = 32 := by
    rw [uuid_hex_length, h]
  simp only [uuid_canonical, List.length_append, List.length_take,
    List.length_drop, List.length_cons, List.length_nil, h32]
  norm_num

theorem uuid_canonical_valid {bs : List Nat} (h : bs.length = 16) :
    is_valid_sensor_uuid (uuid_canonical bs) = true := by
  have h36 := uuid_canonical_length h
  have hne : ¬ (uuid_canonical bs = []) := by
    intro hc
    rw [hc] at h36
    exact absurd h36 (by decide)
  simp [is_valid_sensor_uuid, h36, hne]

theorem dictGet_dictPut_self {α β : Type} [DecidableEq α] (k : α) (v : β)
    (l : List (α × β)) : dictGet k (dictPut k v l) = some v := by
  rw [dictPut]
  split_ifs with h
  · exact dictGet_dictSet_self h
  · rw [dictGet_append_of_none _ (Option.not_isSome_iff_eq_none.mp h),
      dictGet, if_pos rfl]

theorem f64Eq_self_of_reasonable {v : F64}
    (h : is_reasonable_sensor_value v = true) : f64Eq v v = true := by
  cases v with
  | nan => simp [is_reasonable_sensor_value, f64Eq] at h
  | inf s =>
    cases s <;>
      simp [is_reasonable_sensor_value, f64Eq, f64Le, f64Lt, f64Abs] at h
  | fin q => simp [f64Eq]

theorem loop_window (k : Nat) (states : List (List Char × F64))
    (ub vb : List Nat) (h16 : ub.length = 16) (h8 : vb.length = 8)
    (hr : is_reasonable_sensor_value (decode_f64 vb) = true) :
    try_parse_gen1_loop (k + 1) states (ub ++ vb)
      = (dictPut (uuid_canonical ub) (decode_f64 vb) states,
         if state_changed (dictGet (uuid_canonical ub) states)
             (decode_f64 vb) then 1 else 0) := by
  have hlen : (ub ++ vb).length = 24 := by
    rw [List.length_append, h16, h8]
  have hdrop : ((ub ++ vb).drop 8).length = 16 := by
    rw [List.length_drop, hlen]
  have hvb : vb.take 8 = vb := by
    rw [← h8, List.take_length]
  rw [try_parse_gen1_loop, if_pos (by omega), List.take_left' h16,
    List.drop_left' h16, hvb]
  dsimp only
  rw [uuid_canonical_valid h16, hr]
  rw [if_pos (by decide : ((true && true) = true))]
  by_cases hch : state_changed (dictGet (uuid_canonical ub) states)
      (decode_f64 vb) = true
  · rw [if_pos hch, if_pos hch, loop_short (by omega) k]
  · rw [if_neg hch, if_neg hch, loop_short (by omega) k]

theorem scan_window (states : List (List Char × F64)) (ub vb : List Nat)
    (h16 : ub.length = 16) (h8 : vb.length = 8)
    (hr : is_reasonable_sensor_value (decode_f64 vb) = true) :
    try_parse_gen1_states states (ub ++ vb)
      = (dictPut (uuid_canonical ub) (decode_f64 vb) states,
         if state_changed (dictGet (uuid_canonical ub) states)
             (decode_f64 vb) then 1 else 0) := by
  rw [try_parse_gen1_states, List.length_append, h16, h8]
  exact loop_window 23 states ub vb h16 h8 hr

theorem scan_window_unchanged (states : List (List Char × F64))
    (ub vb : List Nat) (h16 : ub.length = 16) (h8 : vb.length = 8)
    (hr : is_reasonable_sensor_value (decode_f64 vb) = true)
    (hold : dictGet (uuid_canonical ub) states = some (decode_f64 vb)) :
    (try_parse_gen1_states states (ub ++ vb)).2 = 0 := by
  rw [scan_window states ub vb h16 h8 hr, hold]
  have : state_changed (some (decode_f64 vb)) (decode_f64 vb) = false := by
    rw [state_changed]
    rw [f64Eq_self_of_reasonable hr]
    rfl
  rw [this]
  rfl

/-- C6: frames whose payload is shorter than 24 bytes produce no state
update and leave the mirror untouched; a payload that is exactly one
16-byte UUID followed by one little-endian f64 whose value passes the
plausibility filter and differs from the mirror's current value produces
exactly one state update (also under the Gen-1 identifiers 0xf5/0xf6/0x5e,
whose second scan finds the value unchanged). -/
theorem gen1_frame_parser_spec (hdr payload : List Nat)
    (states : List (List Char × F64)) (hh : hdr.length = 8) :
    (payload.length < 24 →
      handle_binary_message states (hdr ++ payload) = (states, 0))
    ∧ (∀ ub vb, payload = ub ++ vb → ub.length = 16 → vb.length = 8 →
        is_reasonable_sensor_value (decode_f64 vb) = true →
        state_changed (dictGet (uuid_canonical ub) states)
          (decode_f64 vb) = true →
        (handle_binary_message states (hdr ++ payload)).2 = 1) := by
  constructor
  · intro hlt
    have hdl : (hdr ++ payload).length = 8 + payload.length := by
      rw [List.length_append, hh]
    simp only [handle_binary_message]
    rw [if_neg (by omega), List.drop_left' hh]
    by_cases h24 : 24 ≤ (hdr ++ payload).length
    · rw [if_pos h24, scan_short hlt]
      split_ifs <;> simp [scan_short hlt]
    · rw [if_neg h24]
      split_ifs <;> simp [scan_short hlt]
  · intro ub vb hp h16 h8 hr hc
    subst hp
    have hdl : (hdr ++ (ub ++ vb)).length = 32 := by
      rw [List.length_append, List.length_append, hh, h16, h8]
    simp only [handle_binary_message]
    rw [if_neg (by omega), List.drop_left' hh,
      if_pos (by omega : 24 ≤ (hdr ++ (ub ++ vb)).length)]
    rw [scan_window states ub vb h16 h8 hr, if_pos hc]
    have hunch : (try_parse_gen1_states
        (dictPut (uuid_canonical ub) (decode_f64 vb) states) (ub ++ vb)).2
          = 0 :=
      scan_window_unchanged _ ub vb h16 h8 hr
        (dictGet_dictPut_self (uuid_canonical ub) (decode_f64 vb) states)
    split_ifs <;> simp [hunch]

/-- Witness for `gen1_frame_parser_spec`: an 8-byte header, the all-zero
UUID and the f64 value 1.0 (bytes `00..00 F0 3F`), starting from an empty
mirror. -/
theorem gen1_frame_parser_witness :
    (([3, 245, 0, 0, 24, 0, 0, 0] : List Nat).length = 8)
    ∧ ((List.replicate 16 (0 : Nat)).length = 16)
    ∧ (([0, 0, 0, 0, 0, 0, 0xF0, 0x3F] : List Nat).length = 8)
    ∧ is_reasonable_sensor_value
        (decode_f64 [0, 0, 0, 0, 0, 0, 0xF0, 0x3F]) = true
    ∧ state_changed
        (dictGet (uuid_canonical (List.replicate 16 0)) [])
        (decode_f64 [0, 0, 0, 0, 0, 0, 0xF0, 0x3F]) = true
    ∧ (handle_binary_message []
        ([3, 245, 0, 0, 24, 0, 0, 0]
          ++ (List.replicate 16 0 ++ [0, 0, 0, 0, 0, 0, 0xF0, 0x3F]))).2 = 1 :=
  ⟨by decide, by decide, by decide, by decide, by decide,
    (gen1_frame_parser_spec [3, 245, 0, 0, 24, 0, 0, 0]
      (List.replicate 16 0 ++ [0, 0, 0, 0, 0, 0, 0xF0, 0x3F]) [] (by decide)).2
      (List.replicate 16 0) [0, 0, 0, 0, 0, 0, 0xF0, 0x3F] rfl (by decide)
      (by decide) (by decide) (by decide)⟩

theorem decide_le_eq_not_lt (a b : ℚ) :
    decide (a ≤ b) = !(decide (b < a)) := by
  by_cases h : a ≤ b
  · simp [h, not_lt.mpr h]
  · simp [h, lt_of_not_le h]

/-- C7 amended: the acceptance predicate takes a decoded tuple exactly
when the UUID's canonical string has length 36 (which holds for every
16-byte input) and the value is not NaN and satisfies: exactly 0 or 1, or
`0 ≤ v ≤ 1000` (the code's clause is not `|v| ≤ 1000`), or
`1e-30 ≤ |v| ≤ 1e+30` (closed at both ends); NaN and the infinities are
rejected. -/
theorem reasonable_value_band :
    (∀ q : ℚ, is_reasonable_sensor_value (.fin q)
      = (decide (q = 0) || decide (q = 1)
         || (decide (0 ≤ q) && decide (q ≤ 1000))
         || (decide (lit_1e_minus_30 ≤ |q|) && decide (|q| ≤ lit_1e_plus_30))))
    ∧ is_reasonable_sensor_value .nan = false
    ∧ (∀ s, is_reasonable_sensor_value (.inf s) = false)
    ∧ (∀ bs : List Nat, bs.length = 16 →
        is_valid_sensor_uuid (uuid_canonical bs) = true) := by
  refine ⟨?_, rfl, ?_, ?_⟩
  · intro q
    simp only [is_reasonable_sensor_value, f64Eq, f64Le, f64Lt, f64Abs]
    rw [decide_le_eq_not_lt lit_1e_minus_30 |q|,
      decide_le_eq_not_lt (|q|) lit_1e_plus_30]
    simp only [decide_True, Bool.not_true, Bool.false_eq_true, if_false]
    generalize decide (q = 0) = a0
    generalize decide (q = 1) = a1
    generalize decide (0 ≤ q) = a2
    generalize decide (q ≤ 1000) = a3
    generalize decide (|q| < lit_1e_minus_30) = a4
    generalize decide (lit_1e_plus_30 < |q|) = a5
    revert a0 a1 a2 a3 a4 a5
    decide
  · intro s
    cases s <;> rfl
  · intro bs h
    exact uuid_canonical_valid h

/-- C7 counterexample: the exactly representable value −2⁻¹⁰⁰ (≈ −7.9e-31)
satisfies the claimed band (`|v| ≤ 1000`) yet the code rejects it: the
code's middle clause is `0 <= value <= 1000`, not `|v| ≤ 1000`, and the
final clause rejects `abs(value) < 1e-30`. -/
theorem plausibility_band_counterexample :
    is_reasonable_sensor_value tiny_negative_value = false
    ∧ spec_plausible_band tiny_negative_value = true := by decide

/-- Witness for `reasonable_value_band` at a concrete 16-byte UUID. -/
theorem reasonable_value_band_witness :
    (List.replicate 16 (0 : Nat)).length = 16
    ∧ is_valid_sensor_uuid (uuid_canonical (List.replicate 16 0)) = true :=
  ⟨by decide, reasonable_value_band.2.2.2 (List.replicate 16 0) (by decide)⟩
